import Mathlib

/-!
# Verification of the Console-Based API Testing Tool (`src/api-test.js`)

A shallow embedding of the tool's core: the environment store (`loadEnv`,
`saveEnv`), the request executor (`sendRequest`), the test-suite runner
(`runTestSuite`), the report generator (`generateReport`) and the
post-request half of the interactive session (`interactiveTest`).

JSON values are modelled by an inductive `Json`; JavaScript truthiness
(`!x`, `if (x)`, `x || y`) is modelled explicitly wherever the source
relies on it.  The HTTP transport (axios) and the JSON-schema validator
(the `jsonschema` library) are out-of-scope collaborators and enter as
function parameters: `transport : RequestSpec → TransportResult` and
`valid : Option Json → Json → Bool` (the `.valid` field of
`validate(data, schema)`).  Console output and the order of side effects
are reified as event traces.
-/

/-- A JSON value.  Numbers are modelled as integers: the only numeric
fields the claims touch are HTTP status codes and `expectedStatus`. -/
inductive Json where
  | null
  | bool (b : Bool)
  | num (n : Int)
  | str (s : String)
  | arr (elems : List Json)
  | obj (fields : List (String × Json))
deriving Repr

/-- JavaScript truthiness of a JSON value: `null`, `false`, `0` and `""`
are falsy; every array and every object (including `{}`) is truthy. -/
def Json.truthy : Json → Bool
  | .null => false
  | .bool b => b
  | .num n => n != 0
  | .str s => s != ""
  | .arr _ => true
  | .obj _ => true

/-- `Object.keys(v).length` for a parsed JSON value `v`.
`Object.keys(null)` throws a TypeError, modelled as `none`; strings and
arrays report their length; other primitives report 0. -/
def Json.jsKeysLen : Json → Option Nat
  | .null => none
  | .bool _ => some 0
  | .num _ => some 0
  | .str s => some s.length
  | .arr elems => some elems.length
  | .obj fields => some fields.length

/-- JavaScript truthiness of a possibly-absent error-message string:
`if (result.error)` is taken when the field is present and non-empty. -/
def errTruthy : Option String → Bool
  | none => false
  | some s => s != ""

/-- First-match lookup in a JS-object modelled as an association list
(`o[k]`, `undefined` becoming `none`). -/
def lookupKey {α : Type} (m : List (String × α)) (k : String) : Option α :=
  (m.find? (fun p => p.1 == k)).map (fun p => p.2)

/-- JS property assignment `o[k] = v`: replace the first binding of `k`
if present, otherwise append a new binding. -/
def setKey {α : Type} (m : List (String × α)) (k : String) (v : α) :
    List (String × α) :=
  match m with
  | [] => [(k, v)]
  | (k', v') :: rest =>
      if k' == k then (k, v) :: rest else (k', v') :: setKey rest k v

/-- One request to be sent: `{ method, url, headers, query, body }`
(the argument of `sendRequest`, line 33). -/
structure RequestSpec where
  method : String
  url : String
  headers : List (String × String)
  query : List (String × Json)
  body : Json
deriving Repr

/-- What the axios call produces: a received response of any status
(`validateStatus: () => true` makes axios resolve on every status code,
line 41), or a transport failure carrying the thrown error's `message`. -/
inductive TransportResult where
  | response (status : Int) (headers : List (String × String)) (data : Json)
  | failure (message : String)
deriving Repr

/-- The value returned by `sendRequest` (lines 43-51): a JS object on
which each of the five fields may be present or `undefined`. -/
structure Outcome where
  status : Option Int := none
  headers : Option (List (String × String)) := none
  data : Option Json := none
  responseTime : Option String := none
  error : Option String := none
deriving Repr

/-- `response.headers['x-response-time'] || 'N/A'` (line 47): the header
value when present and truthy (non-empty), else the literal `"N/A"`. -/
def responseTimeOf (hs : List (String × String)) : String :=
  match lookupKey hs "x-response-time" with
  | some v => if v == "" then "N/A" else v
  | none => "N/A"

/-- `sendRequest` (lines 33-52): run the transport; a received response
(any status) yields the success shape, a thrown transport failure is
caught and yields `{ error: error.message }`. -/
def sendRequest (transport : RequestSpec → TransportResult)
    (req : RequestSpec) : Outcome :=
  match transport req with
  | .response st hs d =>
      { status := some st
        headers := some hs
        data := some d
        responseTime := some (responseTimeOf hs)
        error := none }
  | .failure msg => { error := some msg }

/-- One entry of the test-suite input file:
`{ name, request, expectedStatus, expectedSchema? }`. -/
structure TestCase where
  name : String
  request : RequestSpec
  expectedStatus : Int
  expectedSchema : Option Json
deriving Repr

/-- One entry of the persisted report: `{ name, passed, result }`
(lines 136-140). -/
structure TestResult where
  name : String
  passed : Bool
  result : Outcome
deriving Repr

/-- The `passed` expression of `runTestSuite` (lines 133-134):
`!result.error && result.status === test.expectedStatus &&
 (!test.expectedSchema || validate(result.data, test.expectedSchema).valid)`.
An absent `status` (`undefined === n`) is never strictly equal to the
expected integer; an absent `expectedSchema` (`!undefined`) skips the
validator, as does a present falsy one. -/
def computePassed (valid : Option Json → Json → Bool) (t : TestCase)
    (r : Outcome) : Bool :=
  !errTruthy r.error && (r.status == some t.expectedStatus) &&
    (match t.expectedSchema with
     | none => true
     | some s => !s.truthy || valid r.data s)

/-- Whether evaluating the `passed` expression actually calls
`validate`: `&&` and `||` short-circuit, so the call happens iff the
error check and the status comparison both pass and `expectedSchema`
is truthy. -/
def suiteValidateCalled (t : TestCase) (r : Outcome) : Bool :=
  !errTruthy r.error && (r.status == some t.expectedStatus) &&
    (match t.expectedSchema with
     | none => false
     | some s => s.truthy)

/-- Observable steps of the test-suite runner, in execution order. -/
inductive Event where
  | printRunning (name : String)
  | send (req : RequestSpec)
  | validateCall (data : Option Json) (schema : Json)
  | printPassed (passed : Bool)
  | printStatus (actual : Option Int) (expected : Int)
  | printError (msg : String)
  | writeReport (results : List TestResult)
deriving Repr

/-- One iteration of the `for` loop of `runTestSuite` (lines 130-145):
print the name, send the request, compute `passed` (calling the
validator when the short-circuit reaches it), push the result, print
pass/fail and the status line, and print the error when truthy. -/
def runCase (valid : Option Json → Json → Bool)
    (transport : RequestSpec → TransportResult) (t : TestCase) :
    TestResult × List Event :=
  let r := sendRequest transport t.request
  let passed := computePassed valid t r
  (⟨t.name, passed, r⟩,
    [Event.printRunning t.name, Event.send t.request] ++
    (match t.expectedSchema with
     | none => []
     | some s =>
        if suiteValidateCalled t r then [Event.validateCall r.data s] else []) ++
    [Event.printPassed passed, Event.printStatus r.status t.expectedStatus] ++
    (if errTruthy r.error then [Event.printError (r.error.getD "")] else []))

/-- The sequential `for` loop of `runTestSuite`: each case is fully
processed before the next begins; results accumulate in order. -/
def runLoop (valid : Option Json → Json → Bool)
    (transport : RequestSpec → TransportResult) :
    List TestCase → List TestResult × List Event
  | [] => ([], [])
  | t :: ts =>
      let (res, evs) := runCase valid transport t
      let (restRes, restEvs) := runLoop valid transport ts
      (res :: restRes, evs ++ restEvs)

/-- What the `run <file>` command leaves behind. -/
structure SuiteOutput where
  outcome : Except String (List TestResult)
  reportFile : Option (List TestResult)
  events : List Event
deriving Repr

/-- `runTestSuite` (lines 126-149).  `fs.readJson(file)` either yields
the parsed list of test cases or throws; a throw propagates out of the
command before the loop, so nothing is sent and the report file is
untouched.  On success the loop runs over every case and the full result
list is then written to the report file, replacing its previous content. -/
def runTestSuite (valid : Option Json → Json → Bool)
    (transport : RequestSpec → TransportResult)
    (parsed : Except String (List TestCase))
    (reportFile : Option (List TestResult)) : SuiteOutput :=
  match parsed with
  | .error e => ⟨.error e, reportFile, []⟩
  | .ok tests =>
      let (results, events) := runLoop valid transport tests
      ⟨.ok results, some results, events ++ [Event.writeReport results]⟩

/-- A saved environment entry `{ baseUrl, apiKey }` (the `save <name>`
prompt answers, lines 177-189). -/
structure EnvVal where
  baseUrl : String
  apiKey : String
deriving Repr, DecidableEq

/-- The persisted environment file: `none` when missing or unparsable,
otherwise the JSON object mapping environment names to entries. -/
def EnvFile : Type := Option (List (String × EnvVal))

/-- `loadEnv` (lines 16-22): parse the file, and on any failure
(missing file, invalid JSON) return `{}`. -/
def loadEnv (file : EnvFile) : List (String × EnvVal) :=
  match file with
  | none => []
  | some m => m

/-- `saveEnv` (lines 25-30): read-modify-write — load the whole
mapping, set the named key to the new entry, write the whole mapping
back. -/
def saveEnv (name : String) (env : EnvVal) (file : EnvFile) : EnvFile :=
  some (setKey (loadEnv file) name env)

/-- The value offered as the URL prompt's default (line 62):
`env.baseUrl || 'https://api.example.com'`, where `env` is the whole
loaded mapping.  The property access can only hit an entry literally
named `"baseUrl"`; such an entry is an object, hence truthy, and is
offered as-is; otherwise the access yields `undefined` and the fallback
string is offered. -/
inductive UrlDefault where
  | str (s : String)
  | obj (e : EnvVal)
deriving Repr, DecidableEq

/-- The URL prompt default computed by `interactiveTest`
(lines 56-63). -/
def urlPromptDefault (file : EnvFile) : UrlDefault :=
  match lookupKey (loadEnv file) "baseUrl" with
  | some e => .obj e
  | none => .str "https://api.example.com"

/-- Observable steps of the interactive session after the request has
been sent (lines 104-122). -/
inductive IEvent where
  | printError (msg : String)
  | printResponse (status : Option Int) (responseTime : Option String)
  | validateCall (data : Option Json) (schema : Json)
  | printValidation (valid : Bool)
  | throwTypeError
deriving Repr

/-- The interactive session from line 104 on, given the collected
`expectedSchema` and the executor's outcome: `if (result.error)` prints
the error and returns; otherwise the response is printed and, when
`Object.keys(answers.expectedSchema).length` is non-zero, the validator
runs and its verdict is printed (`Object.keys(null)` throws). -/
def interactiveAfter (valid : Option Json → Json → Bool) (schema : Json)
    (r : Outcome) : List IEvent :=
  if errTruthy r.error then [IEvent.printError (r.error.getD "")]
  else
    [IEvent.printResponse r.status r.responseTime] ++
    (match schema.jsKeysLen with
     | none => [IEvent.throwTypeError]
     | some 0 => []
     | some (_ + 1) =>
        [IEvent.validateCall r.data schema,
         IEvent.printValidation (valid r.data schema)])

/-- Printed lines of the `report` command. -/
inductive REvent where
  | header
  | line (name : String) (passed : Bool) (status : Option Int)
  | errLine (msg : String)
  | summary (total : Nat) (passedCount : Nat)
deriving Repr, DecidableEq

/-- `generateReport` (lines 152-161): read the persisted report,
recovering to `[]` when missing or unparsable; print one line per
result (plus the error when truthy) and a trailing summary with the
total and passed counts. -/
def generateReport (file : Option (List TestResult)) : List REvent :=
  let report := file.getD []
  [REvent.header] ++
  (report.map (fun t =>
    [REvent.line t.name t.passed t.result.status] ++
    (if errTruthy t.result.error then [REvent.errLine (t.result.error.getD "")]
     else []))).flatten ++
  [REvent.summary report.length (report.filter (fun t => t.passed)).length]

/-- A test case is well-formed when its optional `expectedSchema`, if
present, is a JSON object — the shape a JSON Schema has for the
validator the tool uses. -/
def TestCase.wfSchema (t : TestCase) : Prop :=
  t.expectedSchema = none ∨ ∃ fields, t.expectedSchema = some (Json.obj fields)

/-! ## Shared concrete inputs used by witnesses and counterexamples -/

/-- A concrete GET request. -/
def reqGet : RequestSpec :=
  { method := "GET", url := "https://example.com/200", headers := [],
    query := [], body := Json.null }

/-- A transport that answers every request with status 200, no headers
and a null body. -/
def transport200 : RequestSpec → TransportResult :=
  fun _ => TransportResult.response 200 [] Json.null

/-- A concrete test case expecting status 200, with no schema. -/
def caseOk : TestCase :=
  { name := "t1", request := reqGet, expectedStatus := 200,
    expectedSchema := none }

/-- A concrete test case expecting status 200, with an empty-object
expected schema. -/
def caseEmptySchema : TestCase :=
  { name := "t2", request := reqGet, expectedStatus := 200,
    expectedSchema := some (Json.obj []) }

/-! ## Theorems -/

/-- **C2.** `sendRequest` is total (never raises: the embedding returns an
`Outcome` for every transport behaviour) and its result is exactly one of
two shapes: a received response — any status code, since
`validateStatus: () => true` — yields status/headers/data (and
responseTime) populated with `error` absent; a transport failure yields
only `error`, holding the thrown message, with the other fields absent. -/
theorem sendRequest_shape (transport : RequestSpec → TransportResult)
    (req : RequestSpec) :
    (∃ msg, transport req = TransportResult.failure msg ∧
      sendRequest transport req =
        { status := none, headers := none, data := none,
          responseTime := none, error := some msg }) ∨
    (∃ st hs d, transport req = TransportResult.response st hs d ∧
      sendRequest transport req =
        { status := some st, headers := some hs, data := some d,
          responseTime := some (responseTimeOf hs), error := none }) := by
  cases h : transport req with
  | response st hs d =>
      right
      exact ⟨st, hs, d, rfl, by simp [sendRequest, h]⟩
  | failure msg =>
      left
      exact ⟨msg, rfl, by simp [sendRequest, h]⟩

/-- **C8 counterexample.** A response whose `x-response-time` header is
present but empty: the header is supplied (lookup yields `some ""`), yet
`responseTime` is `"N/A"`, not the supplied value `""` — the claim that
`responseTime` equals the header value whenever the server supplies one
fails here, because `|| 'N/A'` also replaces a falsy (empty) value. -/
theorem responseTime_empty_header_cex :
    lookupKey [("x-response-time", "")] "x-response-time" = some "" ∧
    (sendRequest
        (fun _ => TransportResult.response 200 [("x-response-time", "")] Json.null)
        reqGet).responseTime = some "N/A" ∧
    "N/A" ≠ "" :=
  ⟨rfl, rfl, by decide⟩

/-- **C8 amended.** For every received response, `responseTime` equals the
value of the `x-response-time` header when the server supplies a
*non-empty* one; when the header is absent — or supplied empty, which the
`||` fallback cannot distinguish from absent — it is the literal `"N/A"`.
No client-side timing exists in the embedding: the value depends only on
the response headers. -/
theorem sendRequest_responseTime (transport : RequestSpec → TransportResult)
    (req : RequestSpec) (st : Int) (hs : List (String × String)) (d : Json)
    (h : transport req = TransportResult.response st hs d) :
    (∃ v, lookupKey hs "x-response-time" = some v ∧ v ≠ "" ∧
      (sendRequest transport req).responseTime = some v) ∨
    ((lookupKey hs "x-response-time" = none ∨
      lookupKey hs "x-response-time" = some "") ∧
      (sendRequest transport req).responseTime = some "N/A") := by
  cases hl : lookupKey hs "x-response-time" with
  | none =>
      right
      exact ⟨Or.inl rfl, by simp [sendRequest, h, responseTimeOf, hl]⟩
  | some v =>
      by_cases hv : v = ""
      · right
        subst hv
        exact ⟨Or.inr rfl, by simp [sendRequest, h, responseTimeOf, hl]⟩
      · left
        refine ⟨v, rfl, hv, ?_⟩
        have hbv : (v == "") = false := by simpa [beq_iff_eq] using hv
        simp [sendRequest, h, responseTimeOf, hl, hbv]

/-- Witness for `sendRequest_responseTime` at a concrete response whose
timing header is `"12ms"`. -/
theorem sendRequest_responseTime_witness :
    (sendRequest
        (fun _ => TransportResult.response 200 [("x-response-time", "12ms")] Json.null)
        reqGet).responseTime = some "12ms" := by
  have h := sendRequest_responseTime
    (fun _ => TransportResult.response 200 [("x-response-time", "12ms")] Json.null)
    reqGet 200 [("x-response-time", "12ms")] Json.null rfl
  rcases h with ⟨v, hv1, hv2, hv3⟩ | ⟨h1, _⟩
  · simp [lookupKey] at hv1
    subst hv1
    exact hv3
  · rcases h1 with h1 | h1 <;> simp [lookupKey] at h1

/-- `lookupKey` after `setKey` at the written key yields the new value. -/
theorem lookupKey_setKey_self {α : Type} (m : List (String × α)) (k : String)
    (v : α) : lookupKey (setKey m k v) k = some v := by
  induction m with
  | nil => simp [setKey, lookupKey]
  | cons p rest ih =>
      obtain ⟨k', v'⟩ := p
      by_cases h : k' = k
      · subst h
        simp [setKey, lookupKey]
      · have hb : (k' == k) = false := by simpa [beq_iff_eq] using h
        simp [setKey, lookupKey, hb] at ih ⊢
        exact ih

/-- `lookupKey` after `setKey` at any other key is unchanged. -/
theorem lookupKey_setKey_other {α : Type} (m : List (String × α))
    (k other : String) (v : α) (hne : other ≠ k) :
    lookupKey (setKey m k v) other = lookupKey m other := by
  have hbo : (k == other) = false := by
    simpa [beq_iff_eq] using fun h => hne h.symm
  induction m with
  | nil => simp [setKey, lookupKey, hbo]
  | cons p rest ih =>
      obtain ⟨k', v'⟩ := p
      by_cases h : k' = k
      · subst h
        simp [setKey, lookupKey, hbo]
      · have hb : (k' == k) = false := by simpa [beq_iff_eq] using h
        by_cases ho : k' = other
        · subst ho
          simp [setKey, lookupKey, hb]
        · have hbo' : (k' == other) = false := by simpa [beq_iff_eq] using ho
          simp [setKey, lookupKey, hb, hbo'] at ih ⊢
          exact ih

/-- **C5.** Round-trip of the environment store: after `saveEnv name env`
on any prior file state, `loadEnv` yields a mapping in which `name` maps
exactly to `env` (the whole entry is replaced, since `envs[name] = env`
assigns the entire object) and every other name maps to the value it had
before the save. -/
theorem saveEnv_loadEnv_roundtrip (file : EnvFile) (name : String)
    (env : EnvVal) :
    lookupKey (loadEnv (saveEnv name env file)) name = some env ∧
    ∀ other, other ≠ name →
      lookupKey (loadEnv (saveEnv name env file)) other =
        lookupKey (loadEnv file) other := by
  constructor
  · exact lookupKey_setKey_self (loadEnv file) name env
  · intro other hne
    exact lookupKey_setKey_other (loadEnv file) name other env hne

/-- Witness for `saveEnv_loadEnv_roundtrip`: save `"y"`, then save `"x"`;
`"x"` maps to the new entry and `"y"` still maps to what it mapped to
before. -/
theorem saveEnv_loadEnv_roundtrip_witness :
    ("y" : String) ≠ "x" ∧
    lookupKey (loadEnv (saveEnv "x" ⟨"u", "k"⟩ (saveEnv "y" ⟨"w", "j"⟩ none))) "x" =
      some ⟨"u", "k"⟩ ∧
    lookupKey (loadEnv (saveEnv "x" ⟨"u", "k"⟩ (saveEnv "y" ⟨"w", "j"⟩ none))) "y" =
      lookupKey (loadEnv (saveEnv "y" ⟨"w", "j"⟩ none)) "y" :=
  ⟨by decide,
   (saveEnv_loadEnv_roundtrip (saveEnv "y" ⟨"w", "j"⟩ none) "x" ⟨"u", "k"⟩).1,
   (saveEnv_loadEnv_roundtrip (saveEnv "y" ⟨"w", "j"⟩ none) "x" ⟨"u", "k"⟩).2
     "y" (by decide)⟩

/-- **C6.** A missing or unparsable environment file makes `loadEnv`
return the empty mapping, and a missing or unparsable report file makes
`generateReport` print exactly what it prints for the empty report.
Both functions are total, so neither condition fails the command. -/
theorem missing_files_treated_as_empty :
    loadEnv none = [] ∧
    generateReport none = generateReport (some []) ∧
    generateReport none = [REvent.header, REvent.summary 0 0] :=
  ⟨rfl, rfl, rfl⟩

/-- The loop of `runTestSuite` maps `runCase` over the cases in order:
one result per case, and the event trace is the concatenation of the
per-case traces. -/
theorem runLoop_eq (valid : Option Json → Json → Bool)
    (transport : RequestSpec → TransportResult) (tests : List TestCase) :
    runLoop valid transport tests =
      (tests.map (fun t => (runCase valid transport t).1),
       (tests.map (fun t => (runCase valid transport t).2)).flatten) := by
  induction tests with
  | nil => rfl
  | cons t ts ih => simp [runLoop, ih]

/-- **C3.** With a parsable suite file, the runner processes the cases
strictly sequentially in file order: the trace is the concatenation of
each case's complete per-case trace (send, validation, printing) in
list order, so each case finishes before the next starts; every case
contributes exactly one result (no failure stops the suite), and only
after the last case is the single `writeReport` event emitted, setting
the report file to exactly the ordered result list — independent of
whatever `reportFile` held before. -/
theorem runTestSuite_sequential (valid : Option Json → Json → Bool)
    (transport : RequestSpec → TransportResult) (tests : List TestCase)
    (reportFile : Option (List TestResult)) :
    runTestSuite valid transport (Except.ok tests) reportFile =
      { outcome := Except.ok (tests.map (fun t => (runCase valid transport t).1)),
        reportFile := some (tests.map (fun t => (runCase valid transport t).1)),
        events :=
          (tests.map (fun t => (runCase valid transport t).2)).flatten ++
          [Event.writeReport (tests.map (fun t => (runCase valid transport t).1))] } ∧
    (tests.map (fun t => (runCase valid transport t).1)).length = tests.length := by
  constructor
  · simp [runTestSuite, runLoop_eq]
  · simp

/-- **C4.** When the suite file is missing or holds invalid JSON, the
parse failure propagates out of `runTestSuite` before the loop: the
command fails with that error, the event trace is empty — in particular
no `send` occurs, so no HTTP request is made and no validator runs —
and the persisted report file is exactly what it was before. -/
theorem runTestSuite_parse_failure (valid : Option Json → Json → Bool)
    (transport : RequestSpec → TransportResult) (msg : String)
    (reportFile : Option (List TestResult)) :
    runTestSuite valid transport (Except.error msg) reportFile =
      { outcome := Except.error msg, reportFile := reportFile, events := [] } :=
  rfl

/-- **C1.** For a well-formed test case (its optional schema, when
present, is a JSON object, as a JSON Schema is), the `passed` field the
runner records for the case is `true` iff the executor's outcome has no
error, its status equals `expectedStatus`, and either the case has no
`expectedSchema` or the validator reports the response data valid
against it. -/
theorem runCase_passed_iff (valid : Option Json → Json → Bool)
    (transport : RequestSpec → TransportResult) (t : TestCase)
    (hwf : t.wfSchema) :
    (runCase valid transport t).1.passed = true ↔
      ((sendRequest transport t.request).error = none ∧
       (sendRequest transport t.request).status = some t.expectedStatus ∧
       (t.expectedSchema = none ∨
        ∃ s, t.expectedSchema = some s ∧
          valid (sendRequest transport t.request).data s = true)) := by
  cases htr : transport t.request with
  | failure msg =>
      have hr : sendRequest transport t.request = { error := some msg } := by
        simp [sendRequest, htr]
      constructor
      · intro hp
        exfalso
        simp [runCase, computePassed, hr] at hp
      · intro ⟨h1, _, _⟩
        simp [hr] at h1
  | response st hs d =>
      have hr : sendRequest transport t.request =
          { status := some st, headers := some hs, data := some d,
            responseTime := some (responseTimeOf hs), error := none } := by
        simp [sendRequest, htr]
      rcases hwf with hnone | ⟨fields, hobj⟩
      · simp [runCase, computePassed, hr, hnone, errTruthy]
      · simp [runCase, computePassed, hr, hobj, errTruthy, Json.truthy]

/-- Witness for `runCase_passed_iff`: a schema-less case expecting 200
against a transport answering 200 is recorded as passed. -/
theorem runCase_passed_iff_witness :
    caseOk.wfSchema ∧
    (runCase (fun _ _ => true) transport200 caseOk).1.passed = true :=
  ⟨Or.inl rfl,
   (runCase_passed_iff (fun _ _ => true) transport200 caseOk (Or.inl rfl)).mpr
     ⟨rfl, rfl, Or.inl rfl⟩⟩

/-- **C7 counterexample.** An empty-object `expectedSchema` in a suite
case is truthy, so `!test.expectedSchema` is false and the runner *does*
invoke the validator on it (here the case expects 200 against a
transport answering 200): validation is performed for an empty schema,
contrary to the claim that every caller treats an empty schema as no
validation requested. -/
theorem suite_empty_schema_validates_cex :
    caseEmptySchema.expectedSchema = some (Json.obj []) ∧
    Event.validateCall (some Json.null) (Json.obj []) ∈
      (runCase (fun _ _ => true) transport200 caseEmptySchema).2 := by
  constructor
  · rfl
  · simp [runCase, sendRequest, transport200, caseEmptySchema,
      suiteValidateCalled, errTruthy, Json.truthy, reqGet]

/-- **C7 amended.** The Interactive Session checks schema presence: an
empty-object schema performs no validation.  The Test Suite Runner skips
validation only when `expectedSchema` is absent; when a present
empty-object schema is supplied, it does invoke the validator whenever
the outcome has no error and its status equals `expectedStatus`. -/
theorem schema_presence_checks (valid : Option Json → Json → Bool) :
    (∀ r d s, IEvent.validateCall d s ∉ interactiveAfter valid (Json.obj []) r) ∧
    (∀ transport t, t.expectedSchema = none →
      ∀ d s, Event.validateCall d s ∉ (runCase valid transport t).2) ∧
    (∀ transport t, t.expectedSchema = some (Json.obj []) →
      (sendRequest transport t.request).error = none →
      (sendRequest transport t.request).status = some t.expectedStatus →
      Event.validateCall (sendRequest transport t.request).data (Json.obj []) ∈
        (runCase valid transport t).2) := by
  refine ⟨?_, ?_, ?_⟩
  · intro r d s
    by_cases he : errTruthy r.error = true
    · simp [interactiveAfter, he, Json.jsKeysLen]
    · simp [interactiveAfter, he, Json.jsKeysLen]
  · intro transport t hsch d s
    by_cases he : errTruthy (sendRequest transport t.request).error = true
    · simp [runCase, hsch, he]
    · simp [runCase, hsch, he]
  · intro transport t hsch herr hstat
    simp [runCase, hsch, suiteValidateCalled, herr, hstat, errTruthy,
      Json.truthy]

/-- Witness for `schema_presence_checks`: the third conjunct applied to
the concrete empty-object-schema case against a transport answering
200. -/
theorem schema_presence_checks_witness :
    caseEmptySchema.expectedSchema = some (Json.obj []) ∧
    Event.validateCall
        (sendRequest transport200 caseEmptySchema.request).data (Json.obj []) ∈
      (runCase (fun _ _ => false) transport200 caseEmptySchema).2 :=
  ⟨rfl,
   (schema_presence_checks (fun _ _ => false)).2.2 transport200 caseEmptySchema
     rfl rfl rfl⟩

/-- **C9.** After saving an environment named `"prod"` into an empty
store — so an environment *has* been saved, and `load` finds it — the
URL prompt default is still the fallback `"https://api.example.com"`,
not the saved `baseUrl`: line 62 reads `env.baseUrl` on the whole
name-to-environment mapping, where no `baseUrl` property exists.  The
saved entry can never supply the default the spec describes. -/
theorem urlPromptDefault_ignores_saved_env :
    lookupKey (loadEnv (saveEnv "prod" ⟨"https://u.example", "k"⟩ none)) "prod" =
      some ⟨"https://u.example", "k"⟩ ∧
    urlPromptDefault (saveEnv "prod" ⟨"https://u.example", "k"⟩ none) =
      UrlDefault.str "https://api.example.com" :=
  ⟨rfl, rfl⟩

/-- **C10 counterexample.** An error-shape outcome whose message is the
empty string: `if (result.error)` is not taken (the empty string is
falsy), so the session does not stop — it prints the response (with
`undefined` fields) and still invokes the validator on the non-empty
schema, contrary to the claim that the error shape always terminates
the flow early. -/
theorem interactive_empty_error_cex :
    (({ error := some "" } : Outcome)).error.isSome = true ∧
    interactiveAfter (fun _ _ => true) (Json.obj [("type", Json.str "object")])
        { error := some "" } =
      [IEvent.printResponse none none,
       IEvent.validateCall none (Json.obj [("type", Json.str "object")]),
       IEvent.printValidation true] :=
  ⟨rfl, rfl⟩

/-- **C10 amended.** Whenever the executor's outcome carries a
*non-empty* error message, the interactive session prints only that
error and terminates the flow early: no response fields are printed and
the validator is never invoked, whatever schema was supplied.  An
error shape with an empty message escapes the check. -/
theorem interactive_error_short_circuit (valid : Option Json → Json → Bool)
    (schema : Json) (r : Outcome) (msg : String)
    (herr : r.error = some msg) (hne : msg ≠ "") :
    interactiveAfter valid schema r = [IEvent.printError msg] := by
  have hb : (msg != "") = true := by simpa using hne
  simp [interactiveAfter, errTruthy, herr, hb]

/-- Witness for `interactive_error_short_circuit` at a concrete refused
connection. -/
theorem interactive_error_short_circuit_witness :
    ({ error := some "connect ECONNREFUSED" } : Outcome).error =
      some "connect ECONNREFUSED" ∧
    ("connect ECONNREFUSED" : String) ≠ "" ∧
    interactiveAfter (fun _ _ => true) (Json.obj [])
        { error := some "connect ECONNREFUSED" } =
      [IEvent.printError "connect ECONNREFUSED"] :=
  ⟨rfl, by decide,
   interactive_error_short_circuit (fun _ _ => true) (Json.obj [])
     { error := some "connect ECONNREFUSED" } "connect ECONNREFUSED" rfl
     (by decide)⟩
